import Mathlib

/-!
Verification of the PDF_RAG_Analyser repository's ingestion-to-retrieval
pipeline.  The Python sources (src/utils.py, src/vectorstore.py,
src/rag_pipeline.py, src/tools/pdf_scraper.py, src/tools/web_crawler.py,
streamlit_app.py) are shallowly embedded below: JSON-style Python
dictionaries become association lists, external collaborators (the
filesystem, the HTTP client, the PDF parser, the regex engine, the
embedding model) become explicit parameters, and every stateful effect
(files written, collection entries) is returned explicitly.
-/

/-- A JSON-style record: an association list from field names to string
values, mirroring the Python dictionaries used throughout the repository. -/
abbrev PyDict := List (String × String)

/-- Python `dict.get(k)`: the value of the first binding of key `k`, if any. -/
def pyGet (d : PyDict) (k : String) : Option String :=
  (d.find? (fun kv => kv.1 == k)).map (fun kv => kv.2)

/-- Python `dict.get(k, dflt)`. -/
def pyGetD (d : PyDict) (k dflt : String) : String :=
  (pyGet d k).getD dflt

/-- Python truthiness of an optional string: `None` and `""` are falsy. -/
def isTruthy : Option String → Bool
  | none => false
  | some s => !(s == "")

/-- Python `a or b` on optional strings: `a` if truthy, else `b` unchanged. -/
def pyOr (a b : Option String) : Option String :=
  if isTruthy a then a else b

/-! ## Chunker (src/utils.py) -/

/-- Configuration constant `CHUNK_SIZE = 512` from src/utils.py. -/
def CHUNK_SIZE : Nat := 512

/-- Configuration constant `CHUNK_OVERLAP = 50` from src/utils.py. -/
def CHUNK_OVERLAP : Nat := 50

/-- Fuel-indexed worker for the splitter: emit a window of `chunkSize`
characters, then restart `chunkSize - overlap` further on, so consecutive
chunks share `overlap` characters.  The fuel only forces structural
termination; `fuel ≥ s.length` makes the base case unreachable except on
short inputs. -/
def slidingChunksFuel (chunkSize overlap : Nat) : Nat → List Char → List (List Char)
  | 0, s => [s]
  | fuel + 1, s =>
    if s.length ≤ chunkSize then [s]
    else s.take chunkSize :: slidingChunksFuel chunkSize overlap fuel (s.drop (chunkSize - overlap))

/-- Modelled from the spec: the text-splitting strategy of the external
`RecursiveCharacterTextSplitter` configured by `get_text_splitter`
(src/utils.py).  The library itself is third-party code absent from src/;
the spec describes it as splitting into chunks of at most `CHUNK_SIZE`
length units with a fixed `CHUNK_OVERLAP` carried between consecutive
chunks, which this sliding window realises. -/
def slidingChunks (s : List Char) : List (List Char) :=
  slidingChunksFuel CHUNK_SIZE CHUNK_OVERLAP s.length s

/-- The metadata dictionary built for each document in
`split_text_into_chunks` (src/utils.py):
`{k: v for k, v in doc.items() if k not in ['text', 'full_text']}`. -/
def docMetadata (d : PyDict) : PyDict :=
  d.filter (fun kv => !(kv.1 == "text") && !(kv.1 == "full_text"))

/-- A chunk produced by the splitter: page content plus copied metadata
(the LangChain `Document` shape used by `split_text_into_chunks`). -/
structure Chunk where
  page_content : List Char
  metadata : PyDict
  deriving DecidableEq

/-- Per-document body of the loop in `split_text_into_chunks`
(src/utils.py): `content_text = doc.get('full_text') or doc.get('text')`;
skip if falsy; otherwise split and attach the metadata dictionary. -/
def chunksOfDoc (d : PyDict) : List Chunk :=
  if isTruthy (pyOr (pyGet d "full_text") (pyGet d "text")) then
    (slidingChunks ((pyOr (pyGet d "full_text") (pyGet d "text")).getD "").data).map
      (fun c => { page_content := c, metadata := docMetadata d })
  else []

/-- `split_text_into_chunks(documents)` from src/utils.py: concatenation of
the per-document chunk lists, in input order. -/
def split_text_into_chunks (docs : List PyDict) : List Chunk :=
  docs.flatMap chunksOfDoc

/-! ## Vector store (src/vectorstore.py) -/

/-- One persisted entry of the Chroma collection: id, document text and
metadata (the embedding vector is opaque and omitted). -/
structure IndexEntry where
  id : Nat
  text : List Char
  metadata : PyDict
  deriving DecidableEq

/-- The state of the Chroma collection: its list of entries. -/
abbrev ChromaCollection := List IndexEntry

/-- `vectordb.get()["ids"]`: all existing entry ids. -/
def chromaGetIds (db : ChromaCollection) : List Nat :=
  db.map (fun e => e.id)

/-- `vectordb.delete(ids=ids)`: remove every entry whose id occurs in `ids`. -/
def chromaDelete (db : ChromaCollection) (ids : List Nat) : ChromaCollection :=
  db.filter (fun e => !(ids.contains e.id))

/-- `vectordb.add_documents(chunks)`: append one new entry per chunk, with
fresh ids starting at `nextId`. -/
def addDocuments (db : ChromaCollection) (nextId : Nat) (chunks : List Chunk) : ChromaCollection :=
  db ++ chunks.enum.map (fun ic => { id := nextId + ic.1, text := ic.2.page_content, metadata := ic.2.metadata })

/-- `create_vector_store(chunks, embedding_function)` from src/vectorstore.py:
enumerate all existing ids, delete them all (skipping the call when there are
none), then add every supplied chunk as a new entry.  Persistence calls do not
change the entry set and are elided. -/
def create_vector_store (db : ChromaCollection) (chunks : List Chunk) (nextId : Nat) : ChromaCollection :=
  addDocuments
    (if (chromaGetIds db).isEmpty then db else chromaDelete db (chromaGetIds db))
    nextId chunks

/-- Deleting every enumerated id empties the collection. -/
theorem chromaDelete_getIds (db : ChromaCollection) :
    chromaDelete db (chromaGetIds db) = [] := by
  apply List.filter_eq_nil_iff.mpr
  intro e he
  simp only [Bool.not_eq_true', Bool.not_eq_false]
  exact List.contains_iff_exists_mem_beq.mpr ⟨e.id, List.mem_map_of_mem (fun e => e.id) he, by simp⟩

/-- Projecting the fresh entries built by `addDocuments` on an empty
collection recovers the chunk list. -/
theorem addDocuments_nil_proj (chunks : List Chunk) (n : Nat) :
    (addDocuments [] n chunks).map (fun e => (e.text, e.metadata))
      = chunks.map (fun c => (c.page_content, c.metadata)) := by
  unfold addDocuments
  rw [List.nil_append, List.map_map]
  show List.map ((fun c : Chunk => (c.page_content, c.metadata)) ∘ Prod.snd) chunks.enum = _
  rw [← List.map_map, List.enum_map_snd]

/-- The entries after `create_vector_store` are exactly the supplied chunks. -/
theorem create_vector_store_entries (db : ChromaCollection) (chunks : List Chunk) (n : Nat) :
    (create_vector_store db chunks n).map (fun e => (e.text, e.metadata))
      = chunks.map (fun c => (c.page_content, c.metadata)) := by
  unfold create_vector_store
  rcases db with _ | ⟨e, db⟩
  · rw [if_pos (by simp [chromaGetIds])]
    exact addDocuments_nil_proj chunks n
  · rw [if_neg (by simp [chromaGetIds]), chromaDelete_getIds]
    exact addDocuments_nil_proj chunks n

/-- Claim C1: `create_vector_store` performs a full rebuild — it enumerates
and deletes every existing entry id, then inserts every supplied chunk, so
the resulting collection holds exactly the supplied chunks; consequently
running ingestion twice over an unchanged chunk list leaves the entry count
unchanged (no duplication accumulates). -/
theorem claim_C1_full_rebuild (db : ChromaCollection) (chunks : List Chunk) (n m : Nat) :
    chromaDelete db (chromaGetIds db) = [] ∧
    (create_vector_store db chunks n).length = chunks.length ∧
    (create_vector_store (create_vector_store db chunks n) chunks m).length
      = (create_vector_store db chunks n).length := by
  refine ⟨chromaDelete_getIds db, ?_, ?_⟩
  · have h := create_vector_store_entries db chunks n
    have := congrArg List.length h
    simpa using this
  · have h1 := create_vector_store_entries db chunks n
    have h2 := create_vector_store_entries (create_vector_store db chunks n) chunks m
    have l1 := congrArg List.length h1
    have l2 := congrArg List.length h2
    simp only [List.length_map] at l1 l2
    omega

/-! ## Splitter properties (claims C2, C8) -/

/-- The last `n` elements of a list. -/
def takeLast (n : Nat) (l : List α) : List α :=
  l.drop (l.length - n)

/-- The overlap contract between two consecutive chunks: the last 50
characters of the first chunk are exactly the first 50 characters of the
second, and that shared run has length 50. -/
def overlapRel (a b : List Char) : Prop :=
  takeLast 50 a = b.take 50 ∧ (takeLast 50 a).length = 50

/-- Every chunk emitted by the splitter worker is at most 512 characters
long, provided the fuel covers the input. -/
theorem slidingChunksFuel_length_le :
    ∀ (fuel : Nat) (s : List Char), s.length ≤ fuel + 512 →
      ∀ c ∈ slidingChunksFuel 512 50 fuel s, c.length ≤ 512 := by
  intro fuel
  induction fuel with
  | zero =>
    intro s hs c hc
    simp only [slidingChunksFuel, List.mem_singleton] at hc
    subst hc
    omega
  | succ fuel ih =>
    intro s hs c hc
    simp only [slidingChunksFuel] at hc
    by_cases hle : s.length ≤ 512
    · rw [if_pos hle] at hc
      simp only [List.mem_singleton] at hc
      subst hc
      exact hle
    · rw [if_neg hle] at hc
      rcases List.mem_cons.mp hc with h | h
      · subst h
        simp only [List.length_take]
        omega
      · refine ih (s.drop (512 - 50)) ?_ c h
        simp only [List.length_drop]
        omega

/-- The first chunk emitted by the splitter worker is the first 512
characters of the input. -/
theorem slidingChunksFuel_head :
    ∀ (fuel : Nat) (s : List Char), s.length ≤ fuel + 512 →
      (slidingChunksFuel 512 50 fuel s).head? = some (s.take 512) := by
  intro fuel
  induction fuel with
  | zero =>
    intro s hs
    simp only [slidingChunksFuel, List.head?_cons]
    rw [List.take_of_length_le (by omega)]
  | succ fuel ih =>
    intro s hs
    simp only [slidingChunksFuel]
    by_cases hle : s.length ≤ 512
    · rw [if_pos hle, List.head?_cons, List.take_of_length_le hle]
    · rw [if_neg hle, List.head?_cons]

/-- The last 50 characters of a full 512-character window equal the first 50
characters of the next window, which starts 462 characters later. -/
theorem take_overlap_eq (s : List Char) (h : 512 ≤ s.length) :
    takeLast 50 (s.take 512) = ((s.drop 462).take 512).take 50 := by
  rw [List.take_take]
  rw [show min 50 512 = 50 from rfl]
  rw [takeLast, List.length_take, show min 512 s.length - 50 = 462 from by omega]
  rw [List.take_drop 462 50 s]

/-- Consecutive chunks emitted by the splitter worker satisfy the overlap
contract. -/
theorem slidingChunksFuel_chain :
    ∀ (fuel : Nat) (s : List Char), s.length ≤ fuel + 512 →
      List.Chain' overlapRel (slidingChunksFuel 512 50 fuel s) := by
  intro fuel
  induction fuel with
  | zero =>
    intro s hs
    exact List.chain'_singleton s
  | succ fuel ih =>
    intro s hs
    simp only [slidingChunksFuel]
    by_cases hle : s.length ≤ 512
    · rw [if_pos hle]
      exact List.chain'_singleton s
    · rw [if_neg hle]
      have hlen : (s.drop (512 - 50)).length ≤ fuel + 512 := by
        simp only [List.length_drop]
        omega
      apply List.chain'_cons'.mpr
      refine ⟨?_, ih (s.drop (512 - 50)) hlen⟩
      intro y hy
      rw [slidingChunksFuel_head fuel (s.drop (512 - 50)) hlen] at hy
      simp only [Option.mem_def, Option.some.injEq] at hy
      subst hy
      have h512 : (s.take 512).length = 512 := by
        simp only [List.length_take]
        omega
      constructor
      · rw [show (512 : Nat) - 50 = 462 from by norm_num]
        exact take_overlap_eq s (by omega)
      · rw [takeLast, h512]
        simp only [List.length_drop, h512]

/-- Every chunk of `slidingChunks` is at most `CHUNK_SIZE` characters. -/
theorem slidingChunks_length_le (s : List Char) :
    ∀ c ∈ slidingChunks s, c.length ≤ 512 :=
  slidingChunksFuel_length_le s.length s (by omega)

/-- Consecutive chunks of `slidingChunks` satisfy the overlap contract. -/
theorem slidingChunks_chain (s : List Char) :
    List.Chain' overlapRel (slidingChunks s) :=
  slidingChunksFuel_chain s.length s (by omega)

/-- The page content of any chunk of `chunksOfDoc` comes from the splitter. -/
theorem chunksOfDoc_content (d : PyDict) (ch : Chunk) (h : ch ∈ chunksOfDoc d) :
    ∃ s : String, ch.page_content ∈ slidingChunks s.data ∧ ch.metadata = docMetadata d := by
  unfold chunksOfDoc at h
  by_cases ht : isTruthy (pyOr (pyGet d "full_text") (pyGet d "text")) = true
  · rw [if_pos ht] at h
    rcases List.mem_map.mp h with ⟨c, hc, rfl⟩
    exact ⟨(pyOr (pyGet d "full_text") (pyGet d "text")).getD "", hc, rfl⟩
  · rw [if_neg ht] at h
    simp at h

/-- Claim C2: every chunk produced by `split_text_into_chunks` has text
length at most the fixed maximum 512 (the single-oversized-atomic-unit
exception is never needed by this splitter), and the consecutive chunks
produced from any one document's text share an overlapping suffix/prefix of
length 50 whenever the document yields more than one chunk. -/
theorem claim_C2_chunk_length_and_overlap (docs : List PyDict) (ch : Chunk)
    (hch : ch ∈ split_text_into_chunks docs) (s : List Char) :
    ch.page_content.length ≤ 512 ∧ List.Chain' overlapRel (slidingChunks s) := by
  constructor
  · rcases List.mem_flatMap.mp hch with ⟨d, _, hd⟩
    rcases chunksOfDoc_content d ch hd with ⟨t, ht, _⟩
    exact slidingChunks_length_le t.data ch.page_content ht
  · exact slidingChunks_chain s

/-- Witness for claim C2 at a concrete document list and a concrete
600-character text (two chunks, so the overlap contract is exercised). -/
theorem claim_C2_witness :
    (⟨['h', 'i'], []⟩ : Chunk) ∈ split_text_into_chunks [[("text", "hi")]] ∧
    ((⟨['h', 'i'], []⟩ : Chunk).page_content.length ≤ 512 ∧
      List.Chain' overlapRel (slidingChunks (List.replicate 600 'a'))) :=
  ⟨by decide,
   claim_C2_chunk_length_and_overlap [[("text", "hi")]] ⟨['h', 'i'], []⟩ (by decide)
     (List.replicate 600 'a')⟩

/-! ## Metadata retention (claims C3, C8) -/

/-- `docMetadata` preserves every binding whose key is neither `text` nor
`full_text`. -/
theorem pyGet_docMetadata (d : PyDict) (k : String)
    (h1 : k ≠ "text") (h2 : k ≠ "full_text") :
    pyGet (docMetadata d) k = pyGet d k := by
  induction d with
  | nil => rfl
  | cons kv rest ih =>
    by_cases hx : kv.1 = "text" ∨ kv.1 = "full_text"
    · have hkk : (kv.1 == k) = false := by
        rcases hx with h | h <;> rw [h] <;>
          simp only [beq_eq_false_iff_ne, ne_eq] <;>
          exact fun e => (by simp [e] at h1 h2 : False)
      have hdrop : docMetadata (kv :: rest) = docMetadata rest := by
        unfold docMetadata
        rw [List.filter_cons]
        rcases hx with h | h <;> simp [h]
      have hskip : pyGet (kv :: rest) k = pyGet rest k := by
        unfold pyGet
        rw [@List.find?_cons_of_neg _ (fun kv => kv.1 == k) kv rest (by simp [hkk])]
      rw [hdrop, hskip]
      exact ih
    · push_neg at hx
      have hkeep : docMetadata (kv :: rest) = kv :: docMetadata rest := by
        unfold docMetadata
        rw [List.filter_cons]
        simp [hx.1, hx.2]
      rw [hkeep]
      by_cases hk : (kv.1 == k) = true
      · unfold pyGet
        rw [@List.find?_cons_of_pos _ (fun kv => kv.1 == k) kv (docMetadata rest) hk,
          @List.find?_cons_of_pos _ (fun kv => kv.1 == k) kv rest hk]
      · unfold pyGet
        rw [@List.find?_cons_of_neg _ (fun kv => kv.1 == k) kv (docMetadata rest) hk,
          @List.find?_cons_of_neg _ (fun kv => kv.1 == k) kv rest hk]
        exact ih

/-- The keys dropped by `docMetadata` really are gone. -/
theorem pyGet_docMetadata_text_none (d : PyDict) :
    pyGet (docMetadata d) "text" = none ∧ pyGet (docMetadata d) "full_text" = none := by
  constructor <;>
  · unfold pyGet
    rw [List.find?_eq_none.mpr, Option.map_none']
    intro kv hkv
    have := List.of_mem_filter hkv
    simp only [Bool.and_eq_true, Bool.not_eq_true'] at this
    simp [beq_eq_false_iff_ne] at this ⊢
    tauto

/-- The citation triple built per retrieved document in the Streamlit answer
renderer (streamlit_app.py, `unique_sources` loop): title, source and
url-or-path, each substituted by its fallback default when absent. -/
def displaySource (md : PyDict) : String × String × String :=
  (pyGetD md "title" "Untitled Document",
   pyGetD md "source" "Unknown Source",
   pyGetD md "url" (pyGetD md "path" "N/A"))

/-- Claim C3: chunk metadata (the parent record minus the bulk text fields)
retains `title`, `source` and the `url`-or-`path` provenance whenever the
parent document carries them, and the presentation layer always displays a
title/source value, substituting the defaults `Untitled Document` /
`Unknown Source` / `N/A` for absent fields. -/
theorem claim_C3_citation_provenance (d md : PyDict) (t sv : String)
    (ht : pyGet d "title" = some t) (hs : pyGet d "source" = some sv)
    (hup : (pyGet d "url").isSome = true ∨ (pyGet d "path").isSome = true) :
    pyGet (docMetadata d) "title" = some t ∧
    pyGet (docMetadata d) "source" = some sv ∧
    ((pyGet (docMetadata d) "url").isSome = true ∨
      (pyGet (docMetadata d) "path").isSome = true) ∧
    (pyGet md "title" = none → (displaySource md).1 = "Untitled Document") ∧
    (∀ x, pyGet md "title" = some x → (displaySource md).1 = x) ∧
    (pyGet md "source" = none → (displaySource md).2.1 = "Unknown Source") ∧
    (∀ x, pyGet md "source" = some x → (displaySource md).2.1 = x) ∧
    (pyGet md "url" = none → pyGet md "path" = none → (displaySource md).2.2 = "N/A") := by
  refine ⟨?_, ?_, ?_, ?_, ?_, ?_, ?_, ?_⟩
  · rw [pyGet_docMetadata d "title" (by decide) (by decide)]
    exact ht
  · rw [pyGet_docMetadata d "source" (by decide) (by decide)]
    exact hs
  · rw [pyGet_docMetadata d "url" (by decide) (by decide),
      pyGet_docMetadata d "path" (by decide) (by decide)]
    exact hup
  · intro h
    simp [displaySource, pyGetD, h]
  · intro x h
    simp [displaySource, pyGetD, h]
  · intro h
    simp [displaySource, pyGetD, h]
  · intro x h
    simp [displaySource, pyGetD, h]
  · intro h1 h2
    simp [displaySource, pyGetD, h1, h2]

/-- Witness for claim C3 at a concrete web-page record and an empty
retrieved-metadata dictionary. -/
theorem claim_C3_witness :
    pyGet (docMetadata [("title", "T"), ("source", "web_page"), ("url", "u"), ("text", "body")]) "title" = some "T" ∧
    pyGet (docMetadata [("title", "T"), ("source", "web_page"), ("url", "u"), ("text", "body")]) "source" = some "web_page" ∧
    ((pyGet (docMetadata [("title", "T"), ("source", "web_page"), ("url", "u"), ("text", "body")]) "url").isSome = true ∨
      (pyGet (docMetadata [("title", "T"), ("source", "web_page"), ("url", "u"), ("text", "body")]) "path").isSome = true) ∧
    (pyGet [] "title" = none → (displaySource []).1 = "Untitled Document") ∧
    (∀ x, pyGet [] "title" = some x → (displaySource []).1 = x) ∧
    (pyGet [] "source" = none → (displaySource []).2.1 = "Unknown Source") ∧
    (∀ x, pyGet [] "source" = some x → (displaySource []).2.1 = x) ∧
    (pyGet [] "url" = none → pyGet [] "path" = none → (displaySource []).2.2 = "N/A") :=
  claim_C3_citation_provenance
    [("title", "T"), ("source", "web_page"), ("url", "u"), ("text", "body")] []
    "T" "web_page" (by decide) (by decide) (Or.inl (by decide))

/-- Claim C8 counterexample: in the record
`{"full_text": "", "text": "hi", "title": "T"}` the `full_text` field is
present, yet `split_text_into_chunks` chunks the `text` field's value
`"hi"`, not the present `full_text` value `""` — because the source selects
with Python truthiness (`doc.get('full_text') or doc.get('text')`), not
with key presence as the claim states. -/
theorem claim_C8_counterexample :
    (pyGet [("full_text", ""), ("text", "hi"), ("title", "T")] "full_text").isSome = true ∧
    (split_text_into_chunks [[("full_text", ""), ("text", "hi"), ("title", "T")]]).map
        (fun ch => ch.page_content) = [['h', 'i']] ∧
    (['h', 'i'] : List Char) ≠ ("" : String).data := by
  decide

/-- Claim C8 as amended: for each input record, `split_text_into_chunks`
selects `full_text` if present with a non-empty value, else `text` if
present with a non-empty value, and skips records where neither field holds
a non-empty value; every produced chunk's metadata equals the parent record
minus exactly the `text` and `full_text` fields. -/
theorem claim_C8_amended (d : PyDict) (s : String) :
    (isTruthy (pyGet d "full_text") = true → pyGet d "full_text" = some s →
      chunksOfDoc d
        = (slidingChunks s.data).map (fun c => { page_content := c, metadata := docMetadata d })) ∧
    (isTruthy (pyGet d "full_text") = false → isTruthy (pyGet d "text") = true →
      pyGet d "text" = some s →
      chunksOfDoc d
        = (slidingChunks s.data).map (fun c => { page_content := c, metadata := docMetadata d })) ∧
    (isTruthy (pyGet d "full_text") = false → isTruthy (pyGet d "text") = false →
      chunksOfDoc d = []) ∧
    (∀ ch ∈ chunksOfDoc d, ch.metadata = docMetadata d) ∧
    pyGet (docMetadata d) "text" = none ∧
    pyGet (docMetadata d) "full_text" = none ∧
    (∀ k, k ≠ "text" → k ≠ "full_text" → pyGet (docMetadata d) k = pyGet d k) := by
  refine ⟨?_, ?_, ?_, ?_, (pyGet_docMetadata_text_none d).1, (pyGet_docMetadata_text_none d).2,
    fun k h1 h2 => pyGet_docMetadata d k h1 h2⟩
  · intro hft hv
    have hor : pyOr (pyGet d "full_text") (pyGet d "text") = some s := by
      unfold pyOr
      rw [if_pos hft, hv]
    rw [hv] at hft
    unfold chunksOfDoc
    rw [hor, if_pos hft]
    rfl
  · intro hft htx hv
    have hor : pyOr (pyGet d "full_text") (pyGet d "text") = some s := by
      unfold pyOr
      rw [if_neg (by simp [hft]), hv]
    rw [hv] at htx
    unfold chunksOfDoc
    rw [hor, if_pos htx]
    rfl
  · intro hft htx
    have hor : pyOr (pyGet d "full_text") (pyGet d "text") = pyGet d "text" := by
      unfold pyOr
      rw [if_neg (by simp [hft])]
    unfold chunksOfDoc
    rw [hor, if_neg (by simp [htx])]
  · intro ch hch
    rcases chunksOfDoc_content d ch hch with ⟨_, _, hm⟩
    exact hm

/-- Witness for the amended claim C8 at a concrete record carrying an empty
`full_text` and a non-empty `text`. -/
theorem claim_C8_amended_witness :
    chunksOfDoc [("full_text", ""), ("text", "hi"), ("title", "T")]
      = (slidingChunks ("hi" : String).data).map
          (fun c => { page_content := c,
                      metadata := docMetadata [("full_text", ""), ("text", "hi"), ("title", "T")] }) ∧
    pyGet (docMetadata [("full_text", ""), ("text", "hi"), ("title", "T")]) "text" = none :=
  ⟨(claim_C8_amended [("full_text", ""), ("text", "hi"), ("title", "T")] "hi").2.1
      (by decide) (by decide) (by decide),
   (claim_C8_amended [("full_text", ""), ("text", "hi"), ("title", "T")] "hi").2.2.2.2.1⟩

/-! ## RAG chain construction (src/rag_pipeline.py, streamlit_app.py) -/

/-- Initialization / call events of the pipeline, in execution order. -/
inductive PipelineEvent where
  | initEmbeddings
  | loadVectorDB
  | initLLM
  | buildChain
  | llmCall
  deriving DecidableEq

/-- Configuration constant `CHROMA_DB_PATH = "./chroma_db"` from
src/vectorstore.py. -/
def CHROMA_DB_PATH : String := "./chroma_db"

/-- Configuration constant `K_RETRIEVAL = 5` from src/rag_pipeline.py. -/
def K_RETRIEVAL : Nat := 5

/-- The built RetrievalQA chain: retriever `k`, model name and prompt. -/
structure RagChain where
  k : Nat
  model : String
  prompt : String
  deriving DecidableEq

/-- The prompt template `RAG_PROMPT_TEMPLATE` of src/rag_pipeline.py is an
opaque fixed string here; only its identity matters to the claims. -/
def RAG_PROMPT_TEMPLATE : String :=
  "You are an expert Q&A assistant."

/-- `build_rag_chain()` from src/rag_pipeline.py over an abstract filesystem
`pathExists`: loads the embedding function, then checks that the persisted
index directory exists — raising `FileNotFoundError` (an `Except.error`)
when it does not — and only afterwards loads the vector store, initializes
the Groq LLM and builds the chain.  The returned event list records which
initialization steps were reached. -/
def build_rag_chain (pathExists : String → Bool) (groqModel : String) :
    Except String RagChain × List PipelineEvent :=
  if pathExists CHROMA_DB_PATH then
    (Except.ok { k := K_RETRIEVAL, model := groqModel, prompt := RAG_PROMPT_TEMPLATE },
     [.initEmbeddings, .loadVectorDB, .initLLM, .buildChain])
  else
    (Except.error ("ChromaDB not found at " ++ CHROMA_DB_PATH ++ ". Please run src/vectorstore.py first."),
     [.initEmbeddings])

/-- User-visible outcomes of `load_rag_chain` in streamlit_app.py. -/
inductive UiMessage where
  | errorNoApiKey
  | warnDbNotFound
  | errorInitFailed (msg : String)
  deriving DecidableEq

/-- `load_rag_chain()` from streamlit_app.py: report a missing
`GROQ_API_KEY` first, then a missing index directory (warning, no chain),
and only then call `build_rag_chain`. -/
def load_rag_chain (apiKey : Option String) (pathExists : String → Bool) (groqModel : String) :
    Option RagChain × List PipelineEvent × Option UiMessage :=
  if isTruthy apiKey = false then (none, [], some .errorNoApiKey)
  else if pathExists CHROMA_DB_PATH = false then (none, [], some .warnDbNotFound)
  else
    match build_rag_chain pathExists groqModel with
    | (Except.ok c, evs) => (some c, evs, none)
    | (Except.error e, evs) => (none, evs, some (.errorInitFailed e))

/-- The chat handler of streamlit_app.py: when no chain was loaded the app
stops (`st.stop()`) before any query is dispatched; otherwise a query
invokes the chain, i.e. the language model. -/
def run_query (chain : Option RagChain) (q : String) : Option String × List PipelineEvent :=
  match chain with
  | none => (none, [])
  | some c => (some (c.prompt ++ q), [.llmCall])

/-- Claim C4: when the persisted index directory does not exist,
`build_rag_chain` fails with a file-not-found error before the language
model is initialized, and a query issued in that state (API key configured,
no ingestion yet) is answered by the index-not-found warning with no
language-model call attempted. -/
theorem claim_C4_index_missing (pathExists : String → Bool) (apiKey : Option String)
    (model q : String)
    (hdb : pathExists CHROMA_DB_PATH = false) (hkey : isTruthy apiKey = true) :
    (build_rag_chain pathExists model).1
      = Except.error ("ChromaDB not found at " ++ CHROMA_DB_PATH ++ ". Please run src/vectorstore.py first.") ∧
    PipelineEvent.initLLM ∉ (build_rag_chain pathExists model).2 ∧
    (load_rag_chain apiKey pathExists model).1 = none ∧
    (load_rag_chain apiKey pathExists model).2.2 = some .warnDbNotFound ∧
    PipelineEvent.initLLM ∉ (load_rag_chain apiKey pathExists model).2.1 ∧
    PipelineEvent.llmCall ∉ (run_query (load_rag_chain apiKey pathExists model).1 q).2 := by
  have hb : build_rag_chain pathExists model
      = (Except.error ("ChromaDB not found at " ++ CHROMA_DB_PATH ++ ". Please run src/vectorstore.py first."),
         [.initEmbeddings]) := by
    unfold build_rag_chain
    rw [hdb]
    rfl
  have hl : load_rag_chain apiKey pathExists model = (none, [], some .warnDbNotFound) := by
    unfold load_rag_chain
    rw [hkey, hdb]
    rfl
  refine ⟨by rw [hb], by rw [hb]; decide, by rw [hl], by rw [hl], by rw [hl]; decide, ?_⟩
  rw [hl]
  show PipelineEvent.llmCall ∉ (run_query none q).2
  simp [run_query]

/-- Witness for claim C4 at a concrete empty filesystem and a set API key. -/
theorem claim_C4_witness :
    (build_rag_chain (fun _ => false) "llama-3.1-8b-instant").1
      = Except.error ("ChromaDB not found at " ++ CHROMA_DB_PATH ++ ". Please run src/vectorstore.py first.") ∧
    PipelineEvent.initLLM ∉ (build_rag_chain (fun _ => false) "llama-3.1-8b-instant").2 ∧
    (load_rag_chain (some "key") (fun _ => false) "llama-3.1-8b-instant").1 = none ∧
    (load_rag_chain (some "key") (fun _ => false) "llama-3.1-8b-instant").2.2 = some .warnDbNotFound ∧
    PipelineEvent.initLLM ∉ (load_rag_chain (some "key") (fun _ => false) "llama-3.1-8b-instant").2.1 ∧
    PipelineEvent.llmCall
      ∉ (run_query (load_rag_chain (some "key") (fun _ => false) "llama-3.1-8b-instant").1 "q").2 :=
  claim_C4_index_missing (fun _ => false) (some "key") "llama-3.1-8b-instant" "q" rfl rfl

/-! ## PDF section extraction (src/tools/pdf_scraper.py) -/

/-- Python `str.split()` (no argument): the maximal runs of non-whitespace
characters. -/
def pyWords : List Char → List (List Char)
  | [] => []
  | c :: rest =>
    if c.isWhitespace then pyWords rest
    else
      match rest with
      | [] => [[c]]
      | d :: _ =>
        if d.isWhitespace then [c] :: pyWords rest
        else
          match pyWords rest with
          | [] => [[c]]
          | w :: ws => (c :: w) :: ws

/-- Python `sep.join(pieces)` for a one-character separator. -/
def joinSep (sep : Char) : List (List Char) → List Char
  | [] => []
  | [w] => w
  | w :: v :: ws => w ++ sep :: joinSep sep (v :: ws)

/-- Python `str.strip()`: drop leading and trailing whitespace. -/
def pyStrip (s : List Char) : List Char :=
  ((s.dropWhile Char.isWhitespace).reverse.dropWhile Char.isWhitespace).reverse

/-- Python `" ".join(s.split())`: words re-joined by single spaces. -/
def pyNormWords (s : List Char) : List Char :=
  joinSep ' ' (pyWords s)

/-- Python `str.lower()`, restricted to the basic-latin case mapping. -/
def toLowerText (s : List Char) : List Char :=
  s.map Char.toLower

/-- Python `s.split('\n')[0]`: the text before the first newline. -/
def firstLine (s : List Char) : List Char :=
  s.takeWhile (fun c => !(c == '\n'))

/-- Python `os.path.basename`: the final path component. -/
def basename (p : String) : String :=
  ((p.splitOn "/").getLast?).getD p

/-- The `safe_search` helper of `extract_pdf_sections`: given the regex
search outcome (the matched group 1, if any), return
`" ".join(match.group(1).strip().split())`, else the default `""`. -/
def safe_search (res : Option (List Char)) : List Char :=
  match res with
  | some g => pyNormWords (pyStrip g)
  | none => []

/-- The fallback `" ".join(full_text.split()[:150])`: the first 150 words of
the original (not lowercased) full text. -/
def fallbackAbstract (full : List Char) : List Char :=
  joinSep ' ' ((pyWords full).take 150)

/-- The record returned by `extract_pdf_sections`. -/
structure PdfRecord where
  path : String
  title : List Char
  abstract : List Char
  introduction : List Char
  conclusion : List Char
  full_text : List Char
  source : String
  error : Option String
  deriving DecidableEq

/-- The initial `metadata` dictionary of `extract_pdf_sections`: default
fields before any extraction. -/
def defaultRecord (path : String) : PdfRecord :=
  { path := path
    title := (basename path).data
    abstract := []
    introduction := []
    conclusion := []
    full_text := []
    source := "pdf_paper"
    error := none }

/-- External collaborators of `extract_pdf_sections`: the filesystem check
(`os.path.exists`), the PDF page extraction (`pdfplumber`, yielding one text
per page, or the exception message), and the three compiled regex searches
(`ABSTRACT_REGEX`, `INTRO_REGEX`, `CONCLUSION_REGEX`), each returning the
matched group 1 when the pattern fires on the given text. -/
structure PdfEnv where
  pathExists : String → Bool
  parsePdf : String → Except String (List (List Char))
  searchAbstract : List Char → Option (List Char)
  searchIntro : List Char → Option (List Char)
  searchConclusion : List Char → Option (List Char)

/-- `extract_pdf_sections(path)` from src/tools/pdf_scraper.py.  A missing
path or a parse exception yields the default record with an `error` field.
On success the pages are joined by newlines, the searches run on a
lowercased copy, the title is the stripped first line of the first page,
a falsy abstract falls back to the first 150 words of the original text,
and `full_text` is the whitespace-normalised original text.  An empty page
list reproduces the `IndexError` of `full_text_list[0]`, caught by the
enclosing handler.  The metadata-only JSON persisted on success does not
affect the returned record and is elided. -/
def extract_pdf_sections (env : PdfEnv) (path : String) : PdfRecord :=
  if env.pathExists path then
    match env.parsePdf path with
    | Except.error e => { defaultRecord path with error := some ("Error processing PDF: " ++ e) }
    | Except.ok [] =>
      { defaultRecord path with error := some "Error processing PDF: list index out of range" }
    | Except.ok (firstPage :: rest) =>
      { path := path
        title := pyStrip (firstLine firstPage)
        abstract :=
          if safe_search (env.searchAbstract (toLowerText (joinSep '\n' (firstPage :: rest)))) = [] then
            fallbackAbstract (joinSep '\n' (firstPage :: rest))
          else
            safe_search (env.searchAbstract (toLowerText (joinSep '\n' (firstPage :: rest))))
        introduction := safe_search (env.searchIntro (toLowerText (joinSep '\n' (firstPage :: rest))))
        conclusion := safe_search (env.searchConclusion (toLowerText (joinSep '\n' (firstPage :: rest))))
        full_text := pyNormWords (joinSep '\n' (firstPage :: rest))
        source := "pdf_paper"
        error := none }
  else
    { defaultRecord path with error := some "File not found." }

/-- Claim C5: for every path that does not exist or whose PDF cannot be
parsed, `extract_pdf_sections` returns a record carrying an `error` field
instead of raising, and the record still carries the default fields (the
path, the basename title, empty sections, the `pdf_paper` source). -/
theorem claim_C5_error_record (env : PdfEnv) (p e : String) :
    (env.pathExists p = false →
      extract_pdf_sections env p = { defaultRecord p with error := some "File not found." }) ∧
    (env.pathExists p = true → env.parsePdf p = Except.error e →
      extract_pdf_sections env p
        = { defaultRecord p with error := some ("Error processing PDF: " ++ e) }) ∧
    (env.pathExists p = false → (extract_pdf_sections env p).error.isSome = true ∧
      (extract_pdf_sections env p).path = p ∧
      (extract_pdf_sections env p).title = (basename p).data ∧
      (extract_pdf_sections env p).abstract = [] ∧
      (extract_pdf_sections env p).introduction = [] ∧
      (extract_pdf_sections env p).conclusion = [] ∧
      (extract_pdf_sections env p).source = "pdf_paper") := by
  refine ⟨?_, ?_, ?_⟩
  · intro h
    unfold extract_pdf_sections
    rw [h]
    rfl
  · intro h hp
    unfold extract_pdf_sections
    rw [h, hp]
    rfl
  · intro h
    have hr : extract_pdf_sections env p
        = { defaultRecord p with error := some "File not found." } := by
      unfold extract_pdf_sections
      rw [h]
      rfl
    rw [hr]
    exact ⟨rfl, rfl, rfl, rfl, rfl, rfl, rfl⟩

/-- Witness for claim C5 at two concrete environments: one where the path
does not exist, one where parsing raises. -/
theorem claim_C5_witness :
    extract_pdf_sections
        { pathExists := fun _ => false, parsePdf := fun _ => Except.ok [],
          searchAbstract := fun _ => none, searchIntro := fun _ => none,
          searchConclusion := fun _ => none } "papers/a.pdf"
      = { defaultRecord "papers/a.pdf" with error := some "File not found." } ∧
    extract_pdf_sections
        { pathExists := fun _ => true, parsePdf := fun _ => Except.error "bad xref",
          searchAbstract := fun _ => none, searchIntro := fun _ => none,
          searchConclusion := fun _ => none } "papers/a.pdf"
      = { defaultRecord "papers/a.pdf" with error := some ("Error processing PDF: " ++ "bad xref") } :=
  ⟨(claim_C5_error_record
      { pathExists := fun _ => false, parsePdf := fun _ => Except.ok [],
        searchAbstract := fun _ => none, searchIntro := fun _ => none,
        searchConclusion := fun _ => none } "papers/a.pdf" "bad xref").1 rfl,
   (claim_C5_error_record
      { pathExists := fun _ => true, parsePdf := fun _ => Except.error "bad xref",
        searchAbstract := fun _ => none, searchIntro := fun _ => none,
        searchConclusion := fun _ => none } "papers/a.pdf" "bad xref").2.1 rfl rfl⟩

/-- Claim C6: on a parseable PDF, no section heuristic failure is fatal —
a missed introduction or conclusion search yields the empty string while
the other fields still populate (no error, the path, the stripped first
line as title, the normalised full text, the `pdf_paper` source), and a
missed abstract search yields the first-150-words fallback. -/
theorem claim_C6_missing_sections (env : PdfEnv) (p : String)
    (firstPage : List Char) (rest : List (List Char))
    (hex : env.pathExists p = true)
    (hp : env.parsePdf p = Except.ok (firstPage :: rest)) :
    (extract_pdf_sections env p).error = none ∧
    (extract_pdf_sections env p).path = p ∧
    (extract_pdf_sections env p).source = "pdf_paper" ∧
    (extract_pdf_sections env p).title = pyStrip (firstLine firstPage) ∧
    (extract_pdf_sections env p).full_text = pyNormWords (joinSep '\n' (firstPage :: rest)) ∧
    (env.searchIntro (toLowerText (joinSep '\n' (firstPage :: rest))) = none →
      (extract_pdf_sections env p).introduction = []) ∧
    (env.searchConclusion (toLowerText (joinSep '\n' (firstPage :: rest))) = none →
      (extract_pdf_sections env p).conclusion = []) ∧
    (env.searchAbstract (toLowerText (joinSep '\n' (firstPage :: rest))) = none →
      (extract_pdf_sections env p).abstract = fallbackAbstract (joinSep '\n' (firstPage :: rest))) := by
  have hr : extract_pdf_sections env p
      = { path := p
          title := pyStrip (firstLine firstPage)
          abstract :=
            if safe_search (env.searchAbstract (toLowerText (joinSep '\n' (firstPage :: rest)))) = [] then
              fallbackAbstract (joinSep '\n' (firstPage :: rest))
            else
              safe_search (env.searchAbstract (toLowerText (joinSep '\n' (firstPage :: rest))))
          introduction := safe_search (env.searchIntro (toLowerText (joinSep '\n' (firstPage :: rest))))
          conclusion := safe_search (env.searchConclusion (toLowerText (joinSep '\n' (firstPage :: rest))))
          full_text := pyNormWords (joinSep '\n' (firstPage :: rest))
          source := "pdf_paper"
          error := none } := by
    unfold extract_pdf_sections
    rw [hex, hp]
    rfl
  rw [hr]
  refine ⟨rfl, rfl, rfl, rfl, rfl, ?_, ?_, ?_⟩
  · intro h
    simp [safe_search, h]
  · intro h
    simp [safe_search, h]
  · intro h
    simp [safe_search, h]

/-- Witness for claim C6 at a concrete one-page PDF on which none of the
three section regexes fire. -/
theorem claim_C6_witness :
    (extract_pdf_sections
        { pathExists := fun _ => true, parsePdf := fun _ => Except.ok [['H', 'i', ' ', 'a', 'l', 'l']],
          searchAbstract := fun _ => none, searchIntro := fun _ => none,
          searchConclusion := fun _ => none } "papers/b.pdf").error = none ∧
    (extract_pdf_sections
        { pathExists := fun _ => true, parsePdf := fun _ => Except.ok [['H', 'i', ' ', 'a', 'l', 'l']],
          searchAbstract := fun _ => none, searchIntro := fun _ => none,
          searchConclusion := fun _ => none } "papers/b.pdf").conclusion = [] ∧
    (extract_pdf_sections
        { pathExists := fun _ => true, parsePdf := fun _ => Except.ok [['H', 'i', ' ', 'a', 'l', 'l']],
          searchAbstract := fun _ => none, searchIntro := fun _ => none,
          searchConclusion := fun _ => none } "papers/b.pdf").abstract
      = fallbackAbstract (joinSep '\n' [['H', 'i', ' ', 'a', 'l', 'l']]) := by
  have h := claim_C6_missing_sections
    { pathExists := fun _ => true, parsePdf := fun _ => Except.ok [['H', 'i', ' ', 'a', 'l', 'l']],
      searchAbstract := fun _ => none, searchIntro := fun _ => none,
      searchConclusion := fun _ => none } "papers/b.pdf" ['H', 'i', ' ', 'a', 'l', 'l'] [] rfl rfl
  exact ⟨h.1, h.2.2.2.2.2.2.1 rfl, h.2.2.2.2.2.2.2 rfl⟩

/-! ## Case analysis of matched sections (claim C10) -/

/-- An ASCII uppercase letter `A`–`Z`. -/
def isUpperLetter (c : Char) : Bool :=
  decide (65 ≤ c.toNat ∧ c.toNat ≤ 90)

/-- Lowercasing never produces an ASCII uppercase letter. -/
theorem isUpperLetter_toLower (c : Char) : isUpperLetter (Char.toLower c) = false := by
  show isUpperLetter (if c.toNat ≥ 65 ∧ c.toNat ≤ 90 then Char.ofNat (c.toNat + 32) else c) = false
  split
  case isTrue h =>
    obtain ⟨h1, h2⟩ := h
    generalize hgen : c.toNat = n at h1 h2 ⊢
    interval_cases n <;> decide
  case isFalse h =>
    unfold isUpperLetter
    apply decide_eq_false
    intro hcon
    exact h ⟨hcon.1, hcon.2⟩

/-- Characters of the lowercased text are never uppercase letters. -/
theorem mem_toLowerText_not_upper (s : List Char) (c : Char)
    (h : c ∈ toLowerText s) : isUpperLetter c = false := by
  rcases List.mem_map.mp h with ⟨d, _, rfl⟩
  exact isUpperLetter_toLower d

/-- Every character of `pyStrip s` is a character of `s`. -/
theorem mem_of_mem_pyStrip (s : List Char) (c : Char) (h : c ∈ pyStrip s) : c ∈ s := by
  unfold pyStrip at h
  rw [List.mem_reverse] at h
  have h1 := (List.dropWhile_sublist Char.isWhitespace).mem h
  rw [List.mem_reverse] at h1
  exact (List.dropWhile_sublist Char.isWhitespace).mem h1

/-- Every character of `joinSep sep ws` is the separator or a character of
one of the pieces. -/
theorem mem_joinSep (sep : Char) :
    ∀ (ws : List (List Char)) (c : Char), c ∈ joinSep sep ws →
      c = sep ∨ ∃ w ∈ ws, c ∈ w := by
  intro ws
  induction ws with
  | nil =>
    intro c h
    simp [joinSep] at h
  | cons w vs ih =>
    intro c h
    cases vs with
    | nil =>
      right
      exact ⟨w, List.mem_singleton_self w, by simpa [joinSep] using h⟩
    | cons v us =>
      rw [show joinSep sep (w :: v :: us) = w ++ sep :: joinSep sep (v :: us) from rfl] at h
      rcases List.mem_append.mp h with h | h
      · exact Or.inr ⟨w, List.mem_cons_self w (v :: us), h⟩
      · rcases List.mem_cons.mp h with h | h
        · exact Or.inl h
        · rcases ih c h with h | ⟨u, hu, hc⟩
          · exact Or.inl h
          · exact Or.inr ⟨u, List.mem_cons_of_mem w hu, hc⟩

/-- Unfolding equation of `pyWords` on a leading whitespace character. -/
theorem pyWords_ws (c : Char) (rest : List Char) (h : c.isWhitespace = true) :
    pyWords (c :: rest) = pyWords rest := by
  rw [pyWords.eq_def]
  simp [h]

/-- Unfolding equation of `pyWords` for a one-character word. -/
theorem pyWords_single (c : Char) (h : ¬c.isWhitespace = true) : pyWords [c] = [[c]] := by
  rw [pyWords.eq_def]
  simp [h]

/-- Unfolding equation of `pyWords` at a word boundary. -/
theorem pyWords_cons_ws (c d : Char) (rest : List Char)
    (hc : ¬c.isWhitespace = true) (hd : d.isWhitespace = true) :
    pyWords (c :: d :: rest) = [c] :: pyWords (d :: rest) := by
  rw [pyWords.eq_def]
  simp [hc, hd]

/-- Unfolding equation of `pyWords` inside a word, degenerate tail case. -/
theorem pyWords_cons_nil (c d : Char) (rest : List Char)
    (hc : ¬c.isWhitespace = true) (hd : ¬d.isWhitespace = true)
    (h : pyWords (d :: rest) = []) :
    pyWords (c :: d :: rest) = [[c]] := by
  rw [pyWords.eq_def]
  simp [hc, hd, h]

/-- Unfolding equation of `pyWords` inside a word. -/
theorem pyWords_cons_cons (c d : Char) (rest w : List Char) (ws : List (List Char))
    (hc : ¬c.isWhitespace = true) (hd : ¬d.isWhitespace = true)
    (h : pyWords (d :: rest) = w :: ws) :
    pyWords (c :: d :: rest) = (c :: w) :: ws := by
  rw [pyWords.eq_def]
  simp [hc, hd, h]

/-- Every character of every word of `pyWords s` occurs in `s`. -/
theorem mem_of_mem_pyWords :
    ∀ (s : List Char) (w : List Char), w ∈ pyWords s → ∀ x ∈ w, x ∈ s := by
  intro s
  induction s using pyWords.induct with
  | case1 =>
    intro w hw
    simp [pyWords] at hw
  | case2 c rest hws ih =>
    intro w hw x hx
    rw [pyWords_ws c rest hws] at hw
    exact List.mem_cons_of_mem c (ih w hw x hx)
  | case3 c hws =>
    intro w hw x hx
    rw [pyWords_single c hws] at hw
    rw [List.mem_singleton] at hw
    subst hw
    rw [List.mem_singleton] at hx
    subst hx
    exact List.mem_singleton_self x
  | case4 c hws d rest hd ih =>
    intro w hw x hx
    rw [pyWords_cons_ws c d rest hws hd] at hw
    rcases List.mem_cons.mp hw with hw | hw
    · subst hw
      rw [List.mem_singleton] at hx
      subst hx
      exact List.mem_cons_self x (d :: rest)
    · exact List.mem_cons_of_mem c (ih w hw x hx)
  | case5 c hws d rest hd hnil ih =>
    intro w hw x hx
    rw [pyWords_cons_nil c d rest hws hd hnil] at hw
    rw [List.mem_singleton] at hw
    subst hw
    rw [List.mem_singleton] at hx
    subst hx
    exact List.mem_cons_self x (d :: rest)
  | case6 c hws d rest hd w0 ws0 hcons ih =>
    intro w hw x hx
    rw [pyWords_cons_cons c d rest w0 ws0 hws hd hcons] at hw
    rcases List.mem_cons.mp hw with hw | hw
    · subst hw
      rcases List.mem_cons.mp hx with hx | hx
      · subst hx
        exact List.mem_cons_self x (d :: rest)
      · exact List.mem_cons_of_mem c (ih w0 (by rw [hcons]; exact List.mem_cons_self w0 ws0) x hx)
    · exact List.mem_cons_of_mem c (ih w (by rw [hcons]; exact List.mem_cons_of_mem w0 hw) x hx)

/-- Characters produced by `safe_search` on a match come from the matched
group, apart from the single-space joiners. -/
theorem mem_safe_search (m : List Char) (c : Char) (h : c ∈ safe_search (some m)) :
    c = ' ' ∨ c ∈ m := by
  unfold safe_search pyNormWords at h
  rcases mem_joinSep ' ' (pyWords (pyStrip m)) c h with h | ⟨w, hw, hc⟩
  · exact Or.inl h
  · exact Or.inr (mem_of_mem_pyStrip m c (mem_of_mem_pyWords (pyStrip m) w hw c hc))

/-- If the matched group is drawn from the lowercased document, the cleaned
section contains no uppercase letter. -/
theorem no_upper_of_match (full m : List Char) (c : Char)
    (hsub : ∀ x ∈ m, x ∈ toLowerText full)
    (hc : c ∈ safe_search (some m)) : isUpperLetter c = false := by
  rcases mem_safe_search m c hc with rfl | h
  · decide
  · exact mem_toLowerText_not_upper full c (hsub c h)

/-- Claim C10: the three section regexes run on a lowercased copy of the
document, so — since a regex match group is drawn from the text it searched
— any matched abstract/introduction/conclusion contains no uppercase
letters, while the `full_text` field and the first-150-words abstract
fallback are computed from the original text and preserve its casing. -/
theorem claim_C10_sections_lowercased (env : PdfEnv) (p : String)
    (firstPage : List Char) (rest : List (List Char)) (m : List Char)
    (hex : env.pathExists p = true)
    (hp : env.parsePdf p = Except.ok (firstPage :: rest)) :
    (env.searchIntro (toLowerText (joinSep '\n' (firstPage :: rest))) = some m →
      (∀ x ∈ m, x ∈ toLowerText (joinSep '\n' (firstPage :: rest))) →
      ∀ c ∈ (extract_pdf_sections env p).introduction, isUpperLetter c = false) ∧
    (env.searchConclusion (toLowerText (joinSep '\n' (firstPage :: rest))) = some m →
      (∀ x ∈ m, x ∈ toLowerText (joinSep '\n' (firstPage :: rest))) →
      ∀ c ∈ (extract_pdf_sections env p).conclusion, isUpperLetter c = false) ∧
    (env.searchAbstract (toLowerText (joinSep '\n' (firstPage :: rest))) = some m →
      (∀ x ∈ m, x ∈ toLowerText (joinSep '\n' (firstPage :: rest))) →
      safe_search (some m) ≠ [] →
      ∀ c ∈ (extract_pdf_sections env p).abstract, isUpperLetter c = false) ∧
    (extract_pdf_sections env p).full_text = pyNormWords (joinSep '\n' (firstPage :: rest)) ∧
    (env.searchAbstract (toLowerText (joinSep '\n' (firstPage :: rest))) = none →
      (extract_pdf_sections env p).abstract = fallbackAbstract (joinSep '\n' (firstPage :: rest))) := by
  have hr := claim_C6_missing_sections env p firstPage rest hex hp
  have hrec : extract_pdf_sections env p
      = { path := p
          title := pyStrip (firstLine firstPage)
          abstract :=
            if safe_search (env.searchAbstract (toLowerText (joinSep '\n' (firstPage :: rest)))) = [] then
              fallbackAbstract (joinSep '\n' (firstPage :: rest))
            else
              safe_search (env.searchAbstract (toLowerText (joinSep '\n' (firstPage :: rest))))
          introduction := safe_search (env.searchIntro (toLowerText (joinSep '\n' (firstPage :: rest))))
          conclusion := safe_search (env.searchConclusion (toLowerText (joinSep '\n' (firstPage :: rest))))
          full_text := pyNormWords (joinSep '\n' (firstPage :: rest))
          source := "pdf_paper"
          error := none } := by
    unfold extract_pdf_sections
    rw [hex, hp]
    rfl
  refine ⟨?_, ?_, ?_, hr.2.2.2.2.1, hr.2.2.2.2.2.2.2⟩
  · intro hm hsub c hc
    rw [hrec] at hc
    simp only at hc
    rw [hm] at hc
    exact no_upper_of_match (joinSep '\n' (firstPage :: rest)) m c hsub hc
  · intro hm hsub c hc
    rw [hrec] at hc
    simp only at hc
    rw [hm] at hc
    exact no_upper_of_match (joinSep '\n' (firstPage :: rest)) m c hsub hc
  · intro hm hsub hne c hc
    rw [hrec] at hc
    simp only at hc
    rw [hm] at hc
    rw [if_neg hne] at hc
    exact no_upper_of_match (joinSep '\n' (firstPage :: rest)) m c hsub hc

/-- Witness for claim C10 at a concrete one-page PDF `"Ab"`, an
introduction match consisting of the first character of the lowercased
text, and no abstract match. -/
theorem claim_C10_witness :
    (∀ c ∈ (extract_pdf_sections
        { pathExists := fun _ => true, parsePdf := fun _ => Except.ok [['A', 'b']],
          searchAbstract := fun _ => none,
          searchIntro := fun t => some (t.take 1),
          searchConclusion := fun _ => none } "papers/c.pdf").introduction,
      isUpperLetter c = false) ∧
    (extract_pdf_sections
        { pathExists := fun _ => true, parsePdf := fun _ => Except.ok [['A', 'b']],
          searchAbstract := fun _ => none,
          searchIntro := fun t => some (t.take 1),
          searchConclusion := fun _ => none } "papers/c.pdf").full_text
      = pyNormWords (joinSep '\n' [['A', 'b']]) ∧
    (extract_pdf_sections
        { pathExists := fun _ => true, parsePdf := fun _ => Except.ok [['A', 'b']],
          searchAbstract := fun _ => none,
          searchIntro := fun t => some (t.take 1),
          searchConclusion := fun _ => none } "papers/c.pdf").abstract
      = fallbackAbstract (joinSep '\n' [['A', 'b']]) := by
  have h := claim_C10_sections_lowercased
    { pathExists := fun _ => true, parsePdf := fun _ => Except.ok [['A', 'b']],
      searchAbstract := fun _ => none,
      searchIntro := fun t => some (t.take 1),
      searchConclusion := fun _ => none } "papers/c.pdf" ['A', 'b'] [] ['a'] rfl rfl
  exact ⟨h.1 (by decide) (by decide), h.2.2.2.1, h.2.2.2.2 rfl⟩

/-! ## Web crawler (src/tools/web_crawler.py) -/

/-- Outcome of the external HTTP fetch and HTML parse for one URL:
either success — carrying the raw markup, the parsed `<title>` content,
the texts of the targeted content elements (after boilerplate removal) and
the whole-body fallback text — or one of the two exception classes caught
by `fetch_page_text` (`requests.exceptions.RequestException` for
network/timeout/non-2xx failures, anything else for the generic handler). -/
inductive FetchOutcome where
  | ok (rawHtml : String) (soupTitle : Option String) (elementTexts : List String) (bodyText : String)
  | requestError (msg : String)
  | otherError (msg : String)

/-- Content of a file written by `fetch_page_text`: the raw markup or the
JSON-serialised processed record. -/
inductive FileContent where
  | raw (html : String)
  | processedJson (record : PyDict)
  deriving DecidableEq

/-- External collaborators of `fetch_page_text`: the HTTP client plus HTML
parse (per URL), `urlparse(url).netloc`, the current timestamp, and
`str(hash(url))[:8]`. -/
structure WebEnv where
  http : String → FetchOutcome
  netloc : String → String
  now : String
  hashPrefix : String → String

/-- Python `" ".join(s.split())` at the `String` level, used for the
whitespace normalisation in `fetch_page_text`. -/
def normWordsStr (s : String) : String :=
  String.intercalate " " ((s.split Char.isWhitespace).filter (fun w => !(w == "")))

/-- The `doc_id` built by `fetch_page_text`:
`title.replace(" ", "_").replace("/", "-").lower()[:50] + "_" + str(hash(url))[:8]`. -/
def web_doc_id (env : WebEnv) (url title : String) : String :=
  (((title.replace " " "_").replace "/" "-").toLower.take 50) ++ "_" ++ env.hashPrefix url

/-- `fetch_page_text(url, timeout)` from src/tools/web_crawler.py, returning
the record together with the list of files written.  On success the title
falls back to the URL's netloc, the element texts are joined and
whitespace-normalised with a whole-body fallback, and two files are written
(raw markup, processed JSON record); each caught exception returns the
four-field error record and writes nothing.  The branch on the fetch
outcome is split out so its unfolding equations are available. -/
def fetch_page_body (env : WebEnv) (url : String) :
    FetchOutcome → PyDict × List (String × FileContent)
  | .ok rawHtml soupTitle elementTexts bodyText =>
    let title := match soupTitle with
      | some t => t.trim
      | none => env.netloc url
    let text := normWordsStr
      (String.intercalate " " (elementTexts.filter (fun t => !(normWordsStr t == ""))))
    let cleaned := if text = "" then normWordsStr bodyText else text
    let metadata : PyDict :=
      [("url", url), ("title", title), ("date_fetched", env.now),
       ("source", "web_page"), ("text", cleaned)]
    (metadata,
     [(web_doc_id env url title ++ "_raw.html", .raw rawHtml),
      (web_doc_id env url title ++ "_processed.json", .processedJson metadata)])
  | .requestError msg =>
    ([("url", url), ("title", "ERROR"), ("text", "Failed to fetch: " ++ msg),
      ("source", "web_page")], [])
  | .otherError msg =>
    ([("url", url), ("title", "ERROR"), ("text", "Unexpected error: " ++ msg),
      ("source", "web_page")], [])

/-- The entry point pairs the body above with the outcome of the HTTP
fetch for the given URL. -/
def fetch_page_text (env : WebEnv) (url : String) : PyDict × List (String × FileContent) :=
  fetch_page_body env url (env.http url)

/-- Claim C7: every network/timeout/non-2xx failure (and likewise any other
exception) makes `fetch_page_text` return the error-tagged record — url,
`ERROR` title, failure message as text, `web_page` source — instead of
propagating the exception. -/
theorem claim_C7_error_record (env : WebEnv) (url msg : String) :
    (env.http url = .requestError msg →
      fetch_page_text env url
        = ([("url", url), ("title", "ERROR"), ("text", "Failed to fetch: " ++ msg),
            ("source", "web_page")], [])) ∧
    (env.http url = .otherError msg →
      fetch_page_text env url
        = ([("url", url), ("title", "ERROR"), ("text", "Unexpected error: " ++ msg),
            ("source", "web_page")], [])) := by
  constructor
  · intro h
    unfold fetch_page_text
    rw [h]
    rfl
  · intro h
    unfold fetch_page_text
    rw [h]
    rfl


/-- Witness for claim C7 at a concrete timed-out fetch. -/
theorem claim_C7_witness :
    fetch_page_text
        { http := fun _ => .requestError "timeout", netloc := fun _ => "example.com",
          now := "2026-01-01T00:00:00", hashPrefix := fun _ => "12345678" } "https://example.com"
      = ([("url", "https://example.com"), ("title", "ERROR"),
          ("text", "Failed to fetch: " ++ "timeout"), ("source", "web_page")], []) :=
  (claim_C7_error_record
    { http := fun _ => .requestError "timeout", netloc := fun _ => "example.com",
      now := "2026-01-01T00:00:00", hashPrefix := fun _ => "12345678" }
    "https://example.com" "timeout").1 rfl

/-- Claim C9 counterexample: a call whose fetch fails writes zero files, not
two — the write statements sit inside the `try` block after the HTTP
request, so the claim "every call writes exactly two files" fails on any
fetch error. -/
theorem claim_C9_counterexample :
    ((fetch_page_text
        { http := fun _ => .requestError "timeout", netloc := fun _ => "example.com",
          now := "2026-01-01T00:00:00", hashPrefix := fun _ => "12345678" }
        "https://example.com").2.length = 2) = False := by
  simp only [eq_iff_iff, iff_false]
  intro h
  have : (0 : Nat) = 2 := h
  omega

/-- Claim C9 as amended: every call of `fetch_page_text` whose HTTP fetch
succeeds writes exactly two files — the raw fetched markup and then the
derived processed record — while a call that fails writes none. -/
theorem claim_C9_amended (env : WebEnv) (url rawHtml bodyText : String)
    (soupTitle : Option String) (elementTexts : List String)
    (hok : env.http url = .ok rawHtml soupTitle elementTexts bodyText) :
    (fetch_page_text env url).2.length = 2 ∧
    ((fetch_page_text env url).2.map (fun f => f.2))
      = [.raw rawHtml, .processedJson (fetch_page_text env url).1] ∧
    (∀ msg, env.http url = .requestError msg → False) := by
  unfold fetch_page_text
  rw [hok]
  refine ⟨?_, ?_, ?_⟩
  · cases soupTitle <;> rfl
  · cases soupTitle <;> rfl
  · intro msg hbad
    exact FetchOutcome.noConfusion hbad

/-- Witness for the amended claim C9 at a concrete successful fetch. -/
theorem claim_C9_amended_witness :
    (fetch_page_text
        { http := fun _ => .ok "<html><p>Hello</p></html>" (some "Greetings") ["Hello"] "Hello",
          netloc := fun _ => "example.com", now := "2026-01-01T00:00:00",
          hashPrefix := fun _ => "12345678" } "https://example.com").2.length = 2 ∧
    ((fetch_page_text
        { http := fun _ => .ok "<html><p>Hello</p></html>" (some "Greetings") ["Hello"] "Hello",
          netloc := fun _ => "example.com", now := "2026-01-01T00:00:00",
          hashPrefix := fun _ => "12345678" } "https://example.com").2.map (fun f => f.2))
      = [.raw "<html><p>Hello</p></html>",
         .processedJson (fetch_page_text
            { http := fun _ => .ok "<html><p>Hello</p></html>" (some "Greetings") ["Hello"] "Hello",
              netloc := fun _ => "example.com", now := "2026-01-01T00:00:00",
              hashPrefix := fun _ => "12345678" } "https://example.com").1] := by
  have h := claim_C9_amended
    { http := fun _ => .ok "<html><p>Hello</p></html>" (some "Greetings") ["Hello"] "Hello",
      netloc := fun _ => "example.com", now := "2026-01-01T00:00:00",
      hashPrefix := fun _ => "12345678" } "https://example.com"
    "<html><p>Hello</p></html>" "Hello" (some "Greetings") ["Hello"] rfl
  exact ⟨h.1, h.2.1⟩
